/-
Verification of the arbitrage opportunity ranking engine of the CriptoBug
repository (`Site/app/api/top-assets/route.ts`), shallowly embedded in Lean 4.

Modelling conventions:
* JavaScript `number` values are modelled as exact rationals (`ℚ`); all the
  formulas of the engine are rational arithmetic on finite inputs.
* Upstream fields that arrive as decimal strings are modelled by their parse
  result: `Option ℚ`, where `none` stands for a string that does not parse to
  a finite number (`Number.parseFloat` → non-finite).  `toNumber` maps `none`
  to `0`, exactly as the source maps a non-finite parse to `0`.
* `Array.prototype.sort` with a consistent comparator is a stable sort; it is
  modelled by sorting the index-tagged list with the comparator extended by
  ascending original index (a strict total order), which is the canonical
  characterisation of a stable sort.
* The single module-level cache slot is modelled by explicit state passing:
  `getStep` takes the current slot and returns the response plus the new slot.
* The `reason` display string (locale text built with `toFixed`) is not
  modelled; no verified property mentions it.
-/
import Mathlib

namespace CriptoBug

/-- The `SupportedExchange` union type of `lib/endpoints.ts`. -/
inductive Exchange where
  | binance | bybit | okx | kraken | coinbase
deriving DecidableEq, Repr

/-- The string key of an exchange (the literal of the TS union member). -/
def Exchange.key : Exchange → String
  | .binance => "binance"
  | .bybit => "bybit"
  | .okx => "okx"
  | .kraken => "kraken"
  | .coinbase => "coinbase"

/-- `SUPPORTED_EXCHANGES` from `lib/endpoints.ts`. -/
def SUPPORTED_EXCHANGES : List Exchange :=
  [.binance, .bybit, .okx, .kraken, .coinbase]

/-- `TOP_ASSETS_EXCHANGES = SUPPORTED_EXCHANGES.filter(e => e !== "coinbase")`. -/
def TOP_ASSETS_EXCHANGES : List Exchange :=
  SUPPORTED_EXCHANGES.filter (fun e => e ≠ Exchange.coinbase)

/-- `TAKER_FEE_PERCENT` table. -/
def TAKER_FEE_PERCENT : Exchange → ℚ
  | .binance => 0.1
  | .bybit => 0.1
  | .okx => 0.1
  | .kraken => 0.26
  | .coinbase => 0.6

/-- `EXCHANGE_LABEL` table. -/
def EXCHANGE_LABEL : Exchange → String
  | .binance => "Binance"
  | .bybit => "Bybit"
  | .okx => "OKX"
  | .kraken => "Kraken"
  | .coinbase => "Coinbase"

def TRANSFER_COST_PERCENT : ℚ := 0.12
def SLIPPAGE_FLOOR_PERCENT : ℚ := 0.05
/-- Default of `TOP_ASSETS_GUARANTEE_BUFFER_PERCENT` (no env override). -/
def GUARANTEE_SAFETY_BUFFER_PERCENT : ℚ := 0.35
/-- Default of `TOP_ASSETS_GUARANTEE_MIN_COVERAGE` (no env override). -/
def GUARANTEE_MIN_COVERAGE : Nat := 3
/-- Default of `TOP_ASSETS_CACHE_TTL_MS` (no env override): max(3000, 15000). -/
def TOP_ASSETS_CACHE_TTL_MS : ℤ := 15000

/-- One upstream market item (`HookMarketItem`).  Numeric fields hold their
parse result: `none` models a string `Number.parseFloat` cannot turn into a
finite number. -/
structure HookMarketItem where
  symbol : String
  base_asset : String
  quote_asset : String
  valor_atual : Option ℚ
  taxa_compra : Option ℚ
  taxa_venda : Option ℚ
  spread_percentual : Option ℚ
deriving DecidableEq, Repr

/-- `ExchangeCandidate`. -/
structure ExchangeCandidate where
  exchange : Exchange
  marketSymbol : String
  quoteAsset : String
  ask : ℚ
  bid : ℚ
  last : ℚ
  spreadPercent : ℚ
deriving DecidableEq, Repr

/-- `toNumber`: a non-finite parse becomes `0`. -/
def toNumber (value : Option ℚ) : ℚ := value.getD 0

/-- ASCII uppercase of one character (the effect of `toUpperCase` on the
ticker symbols this engine handles). -/
def upperChar (c : Char) : Char :=
  if 97 ≤ c.toNat ∧ c.toNat ≤ 122 then Char.ofNat (c.toNat - 32) else c

/-- `normalizeSymbol`: trim surrounding whitespace and uppercase, modelled
character-wise (executable in the kernel). -/
def normalizeSymbol (value : String) : String :=
  String.mk (((value.data.dropWhile Char.isWhitespace).reverse.dropWhile
    Char.isWhitespace).reverse.map upperChar)

/-- `QUOTE_PRIORITY` lookup with default `99` (`getQuotePriority`). -/
def getQuotePriority (quoteAsset : String) : ℚ :=
  let k := normalizeSymbol quoteAsset
  if k = "USDT" then 0
  else if k = "USD" then 1
  else if k = "USDC" then 2
  else if k = "EUR" then 3
  else if k = "BTC" then 4
  else 99

/-- `estimateSlippagePercent`. -/
def estimateSlippagePercent (spreadPercent : ℚ) : ℚ :=
  max SLIPPAGE_FLOOR_PERCENT (|spreadPercent| * 0.35)

/-- `buildMarketIndex` followed by `index.get(key)`: the items whose
normalized base asset equals `key`, in original order. -/
def marketIndexFind (items : List HookMarketItem) (key : String) :
    List HookMarketItem :=
  items.filter (fun it => normalizeSymbol it.base_asset = key)

/-- The candidate built from one market item in `selectBestMarketForExchange`. -/
def toCandidate (exchange : Exchange) (item : HookMarketItem) :
    ExchangeCandidate :=
  { exchange := exchange
    marketSymbol := item.symbol
    quoteAsset := normalizeSymbol item.quote_asset
    ask := toNumber item.taxa_compra
    bid := toNumber item.taxa_venda
    last := toNumber item.valor_atual
    spreadPercent := toNumber item.spread_percentual }

/-- The strict part of the comparator of `selectBestMarketForExchange`:
`a` sorts strictly before `b` (ascending quote priority, then ascending
signed spread percent, then descending bid). -/
def candBefore (a b : ExchangeCandidate) : Bool :=
  if getQuotePriority a.quoteAsset ≠ getQuotePriority b.quoteAsset then
    getQuotePriority a.quoteAsset < getQuotePriority b.quoteAsset
  else if a.spreadPercent ≠ b.spreadPercent then
    a.spreadPercent < b.spreadPercent
  else
    b.bid < a.bid

/-- One step of the running-minimum fold: keep the earlier element unless the
new one sorts strictly before it. -/
def minStep (best : Option ExchangeCandidate) (c : ExchangeCandidate) :
    Option ExchangeCandidate :=
  match best with
  | none => some c
  | some b => if candBefore c b then some c else some b

/-- `ranked[0]` of a stable sort by `candBefore`: the first minimal element.
`none` on an empty list. -/
def firstMinimal (l : List ExchangeCandidate) : Option ExchangeCandidate :=
  l.foldl minStep none

/-- The parsed, price-filtered candidate pool of `selectBestMarketForExchange`
(the `ranked` array before sorting, in match order). -/
def validCandidates (exchange : Exchange) (baseSymbolKeys : List String)
    (items : List HookMarketItem) : List ExchangeCandidate :=
  ((baseSymbolKeys.flatMap (fun key => marketIndexFind items key)).map
    (toCandidate exchange)).filter
    (fun c => 0 < c.ask ∧ 0 < c.bid ∧ 0 < c.last)

/-- `selectBestMarketForExchange`: gather matches for each base-symbol key,
parse, filter non-positive prices, and take the head of the stable sort. -/
def selectBestMarketForExchange (exchange : Exchange)
    (baseSymbolKeys : List String) (items : List HookMarketItem) :
    Option ExchangeCandidate :=
  firstMinimal (validCandidates exchange baseSymbolKeys items)

/-- Result record of `estimateNetProfitPercent`. -/
structure PairCalc where
  netProfitPercent : ℚ
  grossArbitragePercent : ℚ
  estimatedCostsPercent : ℚ
deriving DecidableEq, Repr

/-- `estimateNetProfitPercent`. -/
def estimateNetProfitPercent (buy sell : ExchangeCandidate) : PairCalc :=
  let buyFee := TAKER_FEE_PERCENT buy.exchange
  let sellFee := TAKER_FEE_PERCENT sell.exchange
  let buySlippage := estimateSlippagePercent buy.spreadPercent
  let sellSlippage := estimateSlippagePercent sell.spreadPercent
  let buyCostPercent := buyFee + buySlippage + TRANSFER_COST_PERCENT / 2
  let sellCostPercent := sellFee + sellSlippage + TRANSFER_COST_PERCENT / 2
  let grossArbitragePercent := (sell.bid - buy.ask) / buy.ask * 100
  let effectiveBuy := buy.ask * (1 + buyCostPercent / 100)
  let effectiveSell := sell.bid * max 0 (1 - sellCostPercent / 100)
  { netProfitPercent := (effectiveSell - effectiveBuy) / effectiveBuy * 100
    grossArbitragePercent := grossArbitragePercent
    estimatedCostsPercent := buyCostPercent + sellCostPercent }

/-- The pair guards of the double loop of `rankAssetFromCandidates`. -/
def validPair (buy sell : ExchangeCandidate) : Bool :=
  buy.exchange ≠ sell.exchange ∧ buy.quoteAsset = sell.quoteAsset

/-- State of the best-pair search (`none` models `bestNet = -Infinity`). -/
structure BestPair where
  bestBuy : ExchangeCandidate
  bestSell : ExchangeCandidate
  bestNet : ℚ
  bestGross : ℚ
  bestCosts : ℚ
deriving DecidableEq, Repr

/-- The `BestPair` record taken from a freshly evaluated pair. -/
def takePair (buy sell : ExchangeCandidate) : BestPair :=
  let pc := estimateNetProfitPercent buy sell
  ⟨buy, sell, pc.netProfitPercent, pc.grossArbitragePercent,
    pc.estimatedCostsPercent⟩

/-- One iteration of the inner loop body. -/
def considerPair : Option BestPair → ExchangeCandidate → ExchangeCandidate →
    Option BestPair
  | none, buy, sell =>
    if validPair buy sell then some (takePair buy sell) else none
  | some b, buy, sell =>
    if validPair buy sell then
      if b.bestNet < (estimateNetProfitPercent buy sell).netProfitPercent then
        some (takePair buy sell)
      else some b
    else some b

lemma considerPair_none_eq (b s : ExchangeCandidate) :
    considerPair none b s =
      if validPair b s then some (takePair b s) else none := rfl

lemma considerPair_some_eq (x : BestPair) (b s : ExchangeCandidate) :
    considerPair (some x) b s =
      if validPair b s then
        if x.bestNet < (estimateNetProfitPercent b s).netProfitPercent then
          some (takePair b s)
        else some x
      else some x := rfl

/-- The (buy, sell) pairs in loop order: outer loop over buys, inner over
sells. -/
def pairList (candidates : List ExchangeCandidate) :
    List (ExchangeCandidate × ExchangeCandidate) :=
  candidates.flatMap (fun buy => candidates.map (fun sell => (buy, sell)))

/-- The double loop of `rankAssetFromCandidates`. -/
def findBestPair (candidates : List ExchangeCandidate) : Option BestPair :=
  (pairList candidates).foldl (fun st p => considerPair st p.1 p.2) none

/-- `Omit<RankedAsset, "rank">`, without the `reason` display string. -/
structure RankedAssetBase where
  id : String
  name : String
  symbol : String
  quoteAsset : String
  marketSymbol : String
  buyMarketSymbol : String
  sellMarketSymbol : String
  bestExchangeKey : String
  bestExchange : String
  buyExchangeKey : String
  buyExchange : String
  sellExchangeKey : String
  sellExchange : String
  latestPrice : ℚ
  grossArbitragePercent : ℚ
  netProfitPercent : ℚ
  guaranteedProfitPercent : ℚ
  guaranteedProfit : Bool
  estimatedCostsPercent : ℚ
  averageSpreadPercent : ℚ
  score : ℚ
  coverage : Nat
  available : Bool
deriving DecidableEq, Repr

/-- The zero-candidate result of `rankAssetFromCandidates`. -/
def emptyRanked (name symbol : String) : RankedAssetBase :=
  { id := symbol
    name := name
    symbol := symbol
    quoteAsset := "USDT"
    marketSymbol := symbol ++ "USDT"
    buyMarketSymbol := symbol ++ "USDT"
    sellMarketSymbol := symbol ++ "USDT"
    bestExchangeKey := ""
    bestExchange := "Sem dados"
    buyExchangeKey := ""
    buyExchange := "Sem dados"
    sellExchangeKey := ""
    sellExchange := "Sem dados"
    latestPrice := 0
    grossArbitragePercent := 0
    netProfitPercent := -999
    guaranteedProfitPercent := -999
    guaranteedProfit := false
    estimatedCostsPercent := 0
    averageSpreadPercent := 0
    score := -999
    coverage := 0
    available := false }

/-- The single-exchange fallback of `rankAssetFromCandidates`, built from the
first candidate when no quote-compatible cross-exchange pair exists. -/
def fallbackBestPair (only : ExchangeCandidate) : BestPair :=
  let fallbackCosts := TAKER_FEE_PERCENT only.exchange * 2 +
    estimateSlippagePercent only.spreadPercent * 2 + TRANSFER_COST_PERCENT
  { bestBuy := only
    bestSell := only
    bestNet := -|fallbackCosts + only.spreadPercent|
    bestGross := -|only.spreadPercent|
    bestCosts := fallbackCosts }

/-- The record built by `rankAssetFromCandidates` for a non-empty candidate
list, given the chosen best pair. -/
def rankedFromPair (name symbol : String)
    (candidates : List ExchangeCandidate) (bp : BestPair) : RankedAssetBase :=
  let avgSpread :=
    (candidates.foldl (fun acc item => acc + max 0 item.spreadPercent) 0) /
      ((max 1 candidates.length : ℕ) : ℚ)
  let guaranteedProfitPercent := bp.bestNet - GUARANTEE_SAFETY_BUFFER_PERCENT
  let guaranteedProfit :=
    0 < guaranteedProfitPercent ∧ GUARANTEE_MIN_COVERAGE ≤ candidates.length
  let score := guaranteedProfitPercent + (candidates.length : ℚ) * 0.35 -
    avgSpread * 0.35
  { id := symbol
    name := name
    symbol := symbol
    quoteAsset := bp.bestSell.quoteAsset
    marketSymbol := bp.bestSell.marketSymbol
    buyMarketSymbol := bp.bestBuy.marketSymbol
    sellMarketSymbol := bp.bestSell.marketSymbol
    bestExchangeKey := bp.bestSell.exchange.key
    bestExchange := EXCHANGE_LABEL bp.bestSell.exchange
    buyExchangeKey := bp.bestBuy.exchange.key
    buyExchange := EXCHANGE_LABEL bp.bestBuy.exchange
    sellExchangeKey := bp.bestSell.exchange.key
    sellExchange := EXCHANGE_LABEL bp.bestSell.exchange
    latestPrice := bp.bestSell.last
    grossArbitragePercent := bp.bestGross
    netProfitPercent := bp.bestNet
    guaranteedProfitPercent := guaranteedProfitPercent
    guaranteedProfit := guaranteedProfit
    estimatedCostsPercent := bp.bestCosts
    averageSpreadPercent := avgSpread
    score := score
    coverage := candidates.length
    available := true }

/-- `rankAssetFromCandidates`. -/
def rankAssetFromCandidates (name symbol : String) :
    List ExchangeCandidate → RankedAssetBase
  | [] => emptyRanked name symbol
  | only :: rest =>
    rankedFromPair name symbol (only :: rest)
      ((findBestPair (only :: rest)).getD (fallbackBestPair only))

lemma rankAsset_nil (name symbol : String) :
    rankAssetFromCandidates name symbol [] = emptyRanked name symbol := rfl

lemma rankAsset_cons (name symbol : String) (only : ExchangeCandidate)
    (rest : List ExchangeCandidate) :
    rankAssetFromCandidates name symbol (only :: rest) =
      rankedFromPair name symbol (only :: rest)
        ((findBestPair (only :: rest)).getD (fallbackBestPair only)) := rfl

/-- `TopAssetUniverseItem` of `lib/top-assets.ts`. -/
structure TopAssetUniverseItem where
  name : String
  symbol : String
  aliases : List String := []
deriving DecidableEq, Repr

/-- `TOP_30_ASSET_UNIVERSE`. -/
def TOP_30_ASSET_UNIVERSE : List TopAssetUniverseItem :=
  [ ⟨"Bitcoin", "BTC", []⟩,
    ⟨"Ethereum", "ETH", []⟩,
    ⟨"Tether", "USDT", []⟩,
    ⟨"BNB", "BNB", ["BINANCECOIN"]⟩,
    ⟨"XRP", "XRP", []⟩,
    ⟨"USD Coin", "USDC", []⟩,
    ⟨"Solana", "SOL", []⟩,
    ⟨"TRON", "TRX", []⟩,
    ⟨"Dogecoin", "DOGE", []⟩,
    ⟨"Cardano", "ADA", []⟩,
    ⟨"Bitcoin Cash", "BCH", []⟩,
    ⟨"Chainlink", "LINK", []⟩,
    ⟨"Monero", "XMR", []⟩,
    ⟨"Hyperliquid", "HYPE", []⟩,
    ⟨"UNUS SED LEO", "LEO", []⟩,
    ⟨"Zcash", "ZEC", []⟩,
    ⟨"Stellar", "XLM", []⟩,
    ⟨"Ethena USDe", "USDE", ["USDe"]⟩,
    ⟨"Litecoin", "LTC", []⟩,
    ⟨"Sui", "SUI", []⟩,
    ⟨"Dai", "DAI", []⟩,
    ⟨"Avalanche", "AVAX", []⟩,
    ⟨"Hedera", "HBAR", []⟩,
    ⟨"Shiba Inu", "SHIB", []⟩,
    ⟨"Uniswap", "UNI", []⟩,
    ⟨"PayPal USD", "PYUSD", []⟩,
    ⟨"Mantle", "MNT", []⟩,
    ⟨"Cronos", "CRO", []⟩,
    ⟨"Canton", "CC", ["CANTO"]⟩,
    ⟨"Toncoin", "TON", []⟩ ]

/-- The normalized lookup keys of an asset: canonical symbol plus aliases. -/
def assetKeys (asset : TopAssetUniverseItem) : List String :=
  (asset.symbol :: asset.aliases).map normalizeSymbol

/-- The per-asset candidate gathering loop of `GET`: one
`selectBestMarketForExchange` per queried exchange whose snapshot arrived.
`snaps e = none` models a failed fetch of exchange `e`. -/
def candidatesFor (asset : TopAssetUniverseItem)
    (snaps : Exchange → Option (List HookMarketItem)) :
    List ExchangeCandidate :=
  TOP_ASSETS_EXCHANGES.filterMap (fun exchange =>
    (snaps exchange).bind (fun items =>
      selectBestMarketForExchange exchange (assetKeys asset) items))

/-- `RankedAsset` (base fields plus the 1-based `rank`). -/
structure RankedAsset extends RankedAssetBase where
  rank : Nat
deriving DecidableEq, Repr

/-- Availability class used by the final sort: available sorts first. -/
def availRank (a : RankedAssetBase) : Nat := if a.available then 0 else 1

/-- The final comparator of `GET` as a total preorder on index-tagged assets:
availability class ascending, then score descending, then original position
ascending.  The index tiebreak is exactly the stability guarantee of
`Array.prototype.sort`. -/
def rankedLE (x y : Nat × RankedAssetBase) : Prop :=
  availRank x.2 < availRank y.2 ∨
    (availRank x.2 = availRank y.2 ∧
      (y.2.score < x.2.score ∨ (x.2.score = y.2.score ∧ x.1 ≤ y.1)))

instance : DecidableRel rankedLE := fun x y => by
  unfold rankedLE; infer_instance

/-- The stable sort of `GET`, on index-tagged assets. -/
def sortIndexed (l : List RankedAssetBase) : List (Nat × RankedAssetBase) :=
  List.insertionSort rankedLE l.enum

/-- The stable sort of `GET` (`rankedBase.sort(...)`). -/
def sortRanked (l : List RankedAssetBase) : List RankedAssetBase :=
  (sortIndexed l).map Prod.snd

/-- `rank: index + 1` assignment of `GET`. -/
def assignRanks (l : List RankedAssetBase) : List RankedAsset :=
  l.enum.map (fun p => { toRankedAssetBase := p.2, rank := p.1 + 1 })

/-- The response payload.  `generatedAt` is modelled by the request clock. -/
structure Payload where
  generatedAt : ℤ
  total : Nat
  assets : List RankedAsset
deriving DecidableEq, Repr

/-- `TopAssetsCacheEntry`. -/
structure TopAssetsCacheEntry where
  expiresAt : ℤ
  payload : Payload
deriving DecidableEq, Repr

/-- The ranking pipeline of `GET` on one set of fetched snapshots. -/
def freshAssets (snaps : Exchange → Option (List HookMarketItem)) :
    List RankedAsset :=
  assignRanks (sortRanked (TOP_30_ASSET_UNIVERSE.map (fun asset =>
    rankAssetFromCandidates asset.name asset.symbol (candidatesFor asset snaps))))

/-- The freshly computed payload of `GET`. -/
def freshPayload (now : ℤ)
    (snaps : Exchange → Option (List HookMarketItem)) : Payload :=
  { generatedAt := now
    total := (freshAssets snaps).length
    assets := freshAssets snaps }

/-- One `GET` request as a state transformer over the module-level cache slot:
returns the served payload and the new slot contents. -/
def getStep : Option TopAssetsCacheEntry → ℤ →
    (Exchange → Option (List HookMarketItem)) →
    Payload × Option TopAssetsCacheEntry
  | some e, now, snaps =>
    if now < e.expiresAt then (e.payload, some e)
    else
      (freshPayload now snaps,
        some ⟨now + TOP_ASSETS_CACHE_TTL_MS, freshPayload now snaps⟩)
  | none, now, snaps =>
    (freshPayload now snaps,
      some ⟨now + TOP_ASSETS_CACHE_TTL_MS, freshPayload now snaps⟩)

lemma getStep_some_eq (e : TopAssetsCacheEntry) (now : ℤ)
    (snaps : Exchange → Option (List HookMarketItem)) :
    getStep (some e) now snaps =
      if now < e.expiresAt then (e.payload, some e)
      else
        (freshPayload now snaps,
          some ⟨now + TOP_ASSETS_CACHE_TTL_MS, freshPayload now snaps⟩) := rfl

lemma getStep_none_eq (now : ℤ)
    (snaps : Exchange → Option (List HookMarketItem)) :
    getStep none now snaps =
      (freshPayload now snaps,
        some ⟨now + TOP_ASSETS_CACHE_TTL_MS, freshPayload now snaps⟩) := rfl

/-! ### Definitions written from the specification text, for refinement
comparisons against the source-derived definitions above. -/

/-- The pair cost model exactly as the specification states it:
`buyCostPercent = buyFee + buySlippage + transferCost/2`,
`sellCostPercent = sellFee + sellSlippage + transferCost/2`,
slippage `= max(slippageFloor, |spreadPercent| * 0.35)`,
`effectiveBuyPrice = ask*(1 + buyCostPercent/100)`,
`effectiveSellPrice = bid*max(0, 1 - sellCostPercent/100)`,
`grossArbitragePercent = (sell.bid - buy.ask)/buy.ask*100`,
`netProfitPercent = (effectiveSellPrice - effectiveBuyPrice)/effectiveBuyPrice*100`,
`estimatedCostsPercent = buyCostPercent + sellCostPercent`. -/
def specPairCalc (buy sell : ExchangeCandidate) : PairCalc :=
  let buyCostPercent := TAKER_FEE_PERCENT buy.exchange +
    max SLIPPAGE_FLOOR_PERCENT (|buy.spreadPercent| * 0.35) +
    TRANSFER_COST_PERCENT / 2
  let sellCostPercent := TAKER_FEE_PERCENT sell.exchange +
    max SLIPPAGE_FLOOR_PERCENT (|sell.spreadPercent| * 0.35) +
    TRANSFER_COST_PERCENT / 2
  let effectiveBuyPrice := buy.ask * (1 + buyCostPercent / 100)
  let effectiveSellPrice := sell.bid * max 0 (1 - sellCostPercent / 100)
  { netProfitPercent :=
      (effectiveSellPrice - effectiveBuyPrice) / effectiveBuyPrice * 100
    grossArbitragePercent := (sell.bid - buy.ask) / buy.ask * 100
    estimatedCostsPercent := buyCostPercent + sellCostPercent }

/-- The candidate order exactly as the specification states it: ascending
quote priority, then ascending ABSOLUTE spread percent, then descending bid
(strict part).  The source comparator uses the signed spread instead. -/
def specCandBefore (a b : ExchangeCandidate) : Bool :=
  if getQuotePriority a.quoteAsset ≠ getQuotePriority b.quoteAsset then
    getQuotePriority a.quoteAsset < getQuotePriority b.quoteAsset
  else if |a.spreadPercent| ≠ |b.spreadPercent| then
    |a.spreadPercent| < |b.spreadPercent|
  else
    b.bid < a.bid

/-- First minimal element under the claim's absolute-spread order. -/
def specFirstMinimal (l : List ExchangeCandidate) : Option ExchangeCandidate :=
  l.foldl
    (fun best c =>
      match best with
      | none => some c
      | some b => if specCandBefore c b then some c else some b)
    none

/-- The candidate selector exactly as the claim's words describe it: the
ticker of the pool minimal under `specCandBefore` (ascending quote priority,
ascending ABSOLUTE spread, descending bid).  Compared against the
source-derived `selectBestMarketForExchange`. -/
def specSelectBestMarket (exchange : Exchange) (baseSymbolKeys : List String)
    (items : List HookMarketItem) : Option ExchangeCandidate :=
  specFirstMinimal (validCandidates exchange baseSymbolKeys items)

/-! ### Concrete inputs used by counterexamples and witnesses. -/

/-- Scenario A, binance leg: ask 100.00, bid 99.95, quote USDT, spread 0.05%. -/
def scenarioABinance : ExchangeCandidate :=
  ⟨.binance, "BTCUSDT", "USDT", 100, 99.95, 100, 0.05⟩

/-- Scenario A, kraken leg: ask 100.30, bid 100.20, quote USDT, spread 0.10%. -/
def scenarioAKraken : ExchangeCandidate :=
  ⟨.kraken, "XBTUSDT", "USDT", 100.30, 100.20, 100.25, 0.10⟩

/-- A BTC/USDT market with a crossed book: signed spread −2%, all prices 1. -/
def crossedSpreadItem : HookMarketItem :=
  ⟨"BTCUSDT-A", "BTC", "USDT", some 1, some 1, some 1, some (-2)⟩

/-- A BTC/USDT market with signed spread 1% (smaller in absolute value than
the crossed item's −2%), all prices 1. -/
def tightSpreadItem : HookMarketItem :=
  ⟨"BTCUSDT-B", "BTC", "USDT", some 1, some 1, some 1, some 1⟩

/-- A BTC/USDT market whose ask fails to parse (non-numeric string). -/
def badAskItem : HookMarketItem :=
  ⟨"BTCUSDT-C", "BTC", "USDT", some 1, none, some 1, some 1⟩

/-- A BTC/USDT market with positive prices but a non-numeric spread field. -/
def badSpreadItem : HookMarketItem :=
  ⟨"BTCUSDT-D", "BTC", "USDT", some 1, some 1, some 1, none⟩

/-- A distinguishable stale payload for the cache counterexample. -/
def stalePayload : Payload := ⟨0, 0, []⟩

/-- A lone bybit candidate used by single-exchange witnesses. -/
def loneCandidate : ExchangeCandidate :=
  ⟨.bybit, "ETHUSDT", "USDT", 10, 9.9, 10, 1⟩

/-! ### The candidate comparator is a strict lexicographic order -/

/-- Strict lexicographic order on rational triples. -/
def lexLt3 (x y : ℚ × ℚ × ℚ) : Prop :=
  x.1 < y.1 ∨ (x.1 = y.1 ∧ (x.2.1 < y.2.1 ∨ (x.2.1 = y.2.1 ∧ x.2.2 < y.2.2)))

/-- The sort key of the source comparator: quote priority, signed spread,
negated bid. -/
def candKey (c : ExchangeCandidate) : ℚ × ℚ × ℚ :=
  (getQuotePriority c.quoteAsset, c.spreadPercent, -c.bid)

lemma candBefore_iff (a b : ExchangeCandidate) :
    candBefore a b = true ↔ lexLt3 (candKey a) (candKey b) := by
  unfold candBefore lexLt3 candKey
  split_ifs with h1 h2 <;> simp only [decide_eq_true_eq]
  · constructor
    · exact fun h => Or.inl h
    · rintro (h | ⟨he, _⟩)
      · exact h
      · exact absurd he h1
  · have h1' : getQuotePriority a.quoteAsset = getQuotePriority b.quoteAsset :=
      not_ne_iff.mp h1
    constructor
    · exact fun h => Or.inr ⟨h1', Or.inl h⟩
    · rintro (h | ⟨_, h | ⟨he, _⟩⟩)
      · exact absurd h1' h.ne
      · exact h
      · exact absurd he h2
  · have h1' : getQuotePriority a.quoteAsset = getQuotePriority b.quoteAsset :=
      not_ne_iff.mp h1
    have h2' : a.spreadPercent = b.spreadPercent := not_ne_iff.mp h2
    constructor
    · exact fun h => Or.inr ⟨h1', Or.inr ⟨h2', neg_lt_neg h⟩⟩
    · rintro (h | ⟨_, h | ⟨_, h⟩⟩)
      · exact absurd h1' h.ne
      · exact absurd h2' h.ne
      · exact neg_lt_neg_iff.mp h

lemma candBefore_false_iff (a b : ExchangeCandidate) :
    candBefore a b = false ↔ ¬ lexLt3 (candKey a) (candKey b) := by
  rw [← candBefore_iff]
  exact ⟨fun h => by simp [h], fun h => by simpa using h⟩

lemma lexLt3_irrefl (x : ℚ × ℚ × ℚ) : ¬ lexLt3 x x := by
  unfold lexLt3
  rintro (h | ⟨_, h | ⟨_, h⟩⟩) <;> exact lt_irrefl _ h

lemma lexLt3_trans {x y z : ℚ × ℚ × ℚ} :
    lexLt3 x y → lexLt3 y z → lexLt3 x z := by
  unfold lexLt3
  rintro (h | ⟨e, h | ⟨e2, h⟩⟩) (h' | ⟨e', h' | ⟨e2', h'⟩⟩)
  · exact Or.inl (h.trans h')
  · exact Or.inl (e' ▸ h)
  · exact Or.inl (e' ▸ h)
  · exact Or.inl (e ▸ h')
  · exact Or.inr ⟨e.trans e', Or.inl (h.trans h')⟩
  · exact Or.inr ⟨e.trans e', Or.inl (e2' ▸ h)⟩
  · exact Or.inl (e ▸ h')
  · exact Or.inr ⟨e.trans e', Or.inl (e2 ▸ h')⟩
  · exact Or.inr ⟨e.trans e', Or.inr ⟨e2.trans e2', h.trans h'⟩⟩

lemma lexLt3_trichotomy (x y : ℚ × ℚ × ℚ) :
    lexLt3 x y ∨ x = y ∨ lexLt3 y x := by
  obtain ⟨x1, x2, x3⟩ := x
  obtain ⟨y1, y2, y3⟩ := y
  unfold lexLt3
  rcases lt_trichotomy x1 y1 with h1 | h1 | h1
  · exact Or.inl (Or.inl h1)
  · rcases lt_trichotomy x2 y2 with h2 | h2 | h2
    · exact Or.inl (Or.inr ⟨h1, Or.inl h2⟩)
    · rcases lt_trichotomy x3 y3 with h3 | h3 | h3
      · exact Or.inl (Or.inr ⟨h1, Or.inr ⟨h2, h3⟩⟩)
      · subst h1; subst h2; subst h3; exact Or.inr (Or.inl rfl)
      · exact Or.inr (Or.inr (Or.inr ⟨h1.symm, Or.inr ⟨h2.symm, h3⟩⟩))
    · exact Or.inr (Or.inr (Or.inr ⟨h1.symm, Or.inl h2⟩))
  · exact Or.inr (Or.inr (Or.inl h1))

/-! ### Characterisation of `firstMinimal` and the candidate selector -/

lemma foldl_minStep_spec :
    ∀ (l : List ExchangeCandidate) (b : ExchangeCandidate),
    ∃ c, l.foldl minStep (some b) = some c ∧ (c = b ∨ c ∈ l) ∧
      ∀ d, (d = b ∨ d ∈ l) → candBefore d c = false := by
  intro l
  induction l with
  | nil =>
    intro b
    refine ⟨b, rfl, Or.inl rfl, ?_⟩
    rintro d (rfl | hd)
    · exact candBefore_false_iff d d |>.mpr (lexLt3_irrefl _)
    · cases hd
  | cons a t ih =>
    intro b
    simp only [List.foldl_cons]
    by_cases hab : candBefore a b = true
    · have hstep : minStep (some b) a = some a := by simp [minStep, hab]
      rw [hstep]
      obtain ⟨c, hc, hm, hmin⟩ := ih a
      refine ⟨c, hc, ?_, ?_⟩
      · rcases hm with rfl | hm
        · exact Or.inr (List.mem_cons_self _ _)
        · exact Or.inr (List.mem_cons_of_mem _ hm)
      · rintro d (rfl | hd)
        · rw [candBefore_false_iff]
          intro hdc
          have hac : candBefore a c = false := hmin a (Or.inl rfl)
          rw [candBefore_false_iff] at hac
          have hadb : lexLt3 (candKey a) (candKey d) :=
            (candBefore_iff a d).mp hab
          exact hac (lexLt3_trans hadb hdc)
        · rcases List.mem_cons.mp hd with rfl | hd
          · exact hmin d (Or.inl rfl)
          · exact hmin d (Or.inr hd)
    · have hab' : candBefore a b = false := by
        cases h : candBefore a b
        · rfl
        · exact absurd h hab
      have hstep : minStep (some b) a = some b := by simp [minStep, hab']
      rw [hstep]
      obtain ⟨c, hc, hm, hmin⟩ := ih b
      refine ⟨c, hc, ?_, ?_⟩
      · rcases hm with rfl | hm
        · exact Or.inl rfl
        · exact Or.inr (List.mem_cons_of_mem _ hm)
      · rintro d (rfl | hd)
        · exact hmin d (Or.inl rfl)
        · rcases List.mem_cons.mp hd with rfl | hd
          · rw [candBefore_false_iff]
            intro hdc
            have hbc : candBefore b c = false := hmin b (Or.inl rfl)
            rw [candBefore_false_iff] at hbc
            rw [candBefore_false_iff] at hab'
            rcases lexLt3_trichotomy (candKey c) (candKey b) with h | h | h
            · exact hab' (lexLt3_trans hdc h)
            · exact hab' (h ▸ hdc)
            · exact hbc h
          · exact hmin d (Or.inr hd)

lemma firstMinimal_cons (a : ExchangeCandidate) (t : List ExchangeCandidate) :
    firstMinimal (a :: t) = t.foldl minStep (some a) := rfl

lemma firstMinimal_spec (l : List ExchangeCandidate) (c : ExchangeCandidate)
    (h : firstMinimal l = some c) :
    c ∈ l ∧ ∀ d ∈ l, candBefore d c = false := by
  cases l with
  | nil => cases h
  | cons a t =>
    rw [firstMinimal_cons] at h
    obtain ⟨c', hc', hm, hmin⟩ := foldl_minStep_spec t a
    rw [hc'] at h
    obtain rfl : c' = c := Option.some.inj h
    constructor
    · rcases hm with rfl | hm
      · exact List.mem_cons_self _ _
      · exact List.mem_cons_of_mem _ hm
    · intro d hd
      rcases List.mem_cons.mp hd with rfl | hd
      · exact hmin d (Or.inl rfl)
      · exact hmin d (Or.inr hd)

lemma firstMinimal_none_iff (l : List ExchangeCandidate) :
    firstMinimal l = none ↔ l = [] := by
  cases l with
  | nil => simp [firstMinimal]
  | cons a t =>
    rw [firstMinimal_cons]
    obtain ⟨c, hc, _, _⟩ := foldl_minStep_spec t a
    simp [hc]

lemma mem_validCandidates_pos {exchange : Exchange} {keys : List String}
    {items : List HookMarketItem} {c : ExchangeCandidate}
    (h : c ∈ validCandidates exchange keys items) :
    0 < c.ask ∧ 0 < c.bid ∧ 0 < c.last := by
  have := List.mem_filter.mp h
  simpa using this.2

lemma mem_validCandidates_exchange {exchange : Exchange} {keys : List String}
    {items : List HookMarketItem} {c : ExchangeCandidate}
    (h : c ∈ validCandidates exchange keys items) :
    c.exchange = exchange := by
  have hmem := (List.mem_filter.mp h).1
  obtain ⟨item, _, rfl⟩ := List.mem_map.mp hmem
  rfl

/-! ### Characterisation of the best-pair search -/

/-- The invariant of the best-pair state: a valid pair drawn from the
candidate pool whose recorded figures are those of the cost model. -/
def bpGood (cands : List ExchangeCandidate) (bp : BestPair) : Prop :=
  bp.bestBuy ∈ cands ∧ bp.bestSell ∈ cands ∧
  validPair bp.bestBuy bp.bestSell = true ∧
  bp.bestNet = (estimateNetProfitPercent bp.bestBuy bp.bestSell).netProfitPercent ∧
  bp.bestGross =
    (estimateNetProfitPercent bp.bestBuy bp.bestSell).grossArbitragePercent ∧
  bp.bestCosts =
    (estimateNetProfitPercent bp.bestBuy bp.bestSell).estimatedCostsPercent

/-- The fold of the double loop over an explicit pair list. -/
def pairFold (l : List (ExchangeCandidate × ExchangeCandidate))
    (st : Option BestPair) : Option BestPair :=
  l.foldl (fun st p => considerPair st p.1 p.2) st

lemma findBestPair_def (cands : List ExchangeCandidate) :
    findBestPair cands = pairFold (pairList cands) none := rfl

lemma mem_pairList {cands : List ExchangeCandidate}
    {p : ExchangeCandidate × ExchangeCandidate} :
    p ∈ pairList cands ↔ p.1 ∈ cands ∧ p.2 ∈ cands := by
  obtain ⟨b, s⟩ := p
  simp [pairList, List.mem_flatMap, List.mem_map, eq_comm]

lemma considerPair_not_valid {st : Option BestPair} {b s : ExchangeCandidate}
    (h : validPair b s = false) : considerPair st b s = st := by
  cases st with
  | none => rw [considerPair_none_eq, if_neg (by simp [h])]
  | some x => rw [considerPair_some_eq, if_neg (by simp [h])]

lemma takePair_good {cands : List ExchangeCandidate} {b s : ExchangeCandidate}
    (hb : b ∈ cands) (hs : s ∈ cands) (hv : validPair b s = true) :
    bpGood cands (takePair b s) :=
  ⟨hb, hs, hv, rfl, rfl, rfl⟩

lemma considerPair_good {cands : List ExchangeCandidate} {st : Option BestPair}
    {b s : ExchangeCandidate} {bp : BestPair}
    (hb : b ∈ cands) (hs : s ∈ cands)
    (hst : ∀ x, st = some x → bpGood cands x)
    (h : considerPair st b s = some bp) : bpGood cands bp := by
  by_cases hv : validPair b s = true
  · cases st with
    | none =>
      rw [considerPair_none_eq, if_pos hv] at h
      obtain rfl := Option.some.inj h
      exact takePair_good hb hs hv
    | some x =>
      rw [considerPair_some_eq, if_pos hv] at h
      by_cases hlt :
          x.bestNet < (estimateNetProfitPercent b s).netProfitPercent
      · rw [if_pos hlt] at h
        obtain rfl := Option.some.inj h
        exact takePair_good hb hs hv
      · rw [if_neg hlt] at h
        obtain rfl := Option.some.inj h
        exact hst _ rfl
  · have hv' : validPair b s = false := by
      cases hvv : validPair b s
      · rfl
      · exact absurd hvv hv
    rw [considerPair_not_valid hv'] at h
    exact hst bp h

lemma considerPair_mono {st : Option BestPair} {b s : ExchangeCandidate}
    {x : BestPair} (h : st = some x) :
    ∃ y, considerPair st b s = some y ∧ x.bestNet ≤ y.bestNet := by
  subst h
  by_cases hv : validPair b s = true
  · rw [considerPair_some_eq, if_pos hv]
    by_cases hlt : x.bestNet < (estimateNetProfitPercent b s).netProfitPercent
    · exact ⟨takePair b s, by rw [if_pos hlt], le_of_lt hlt⟩
    · exact ⟨x, by rw [if_neg hlt], le_refl _⟩
  · have hv' : validPair b s = false := by
      cases hvv : validPair b s
      · rfl
      · exact absurd hvv hv
    exact ⟨x, considerPair_not_valid hv', le_refl _⟩

lemma considerPair_attain {st : Option BestPair} {b s : ExchangeCandidate}
    (hv : validPair b s = true) :
    ∃ y, considerPair st b s = some y ∧
      (estimateNetProfitPercent b s).netProfitPercent ≤ y.bestNet := by
  cases st with
  | none =>
    rw [considerPair_none_eq, if_pos hv]
    exact ⟨takePair b s, rfl, le_refl _⟩
  | some x =>
    rw [considerPair_some_eq, if_pos hv]
    by_cases hlt : x.bestNet < (estimateNetProfitPercent b s).netProfitPercent
    · exact ⟨takePair b s, by rw [if_pos hlt], le_refl _⟩
    · exact ⟨x, by rw [if_neg hlt], le_of_not_lt hlt⟩

lemma pairFold_good {cands : List ExchangeCandidate} :
    ∀ (l : List (ExchangeCandidate × ExchangeCandidate)) (st : Option BestPair),
    (∀ p ∈ l, p.1 ∈ cands ∧ p.2 ∈ cands) →
    (∀ x, st = some x → bpGood cands x) →
    ∀ bp, pairFold l st = some bp → bpGood cands bp := by
  intro l
  induction l with
  | nil => intro st _ hst bp h; exact hst bp h
  | cons q t ih =>
    intro st hl hst bp h
    have hq := hl q (List.mem_cons_self _ _)
    exact ih (considerPair st q.1 q.2)
      (fun p hp => hl p (List.mem_cons_of_mem _ hp))
      (fun x hx => considerPair_good hq.1 hq.2 hst hx) bp h

lemma pairFold_mono :
    ∀ (l : List (ExchangeCandidate × ExchangeCandidate)) (st : Option BestPair)
    (x : BestPair), st = some x →
    ∃ y, pairFold l st = some y ∧ x.bestNet ≤ y.bestNet := by
  intro l
  induction l with
  | nil => intro st x h; exact ⟨x, h, le_refl _⟩
  | cons q t ih =>
    intro st x h
    obtain ⟨y₁, hy₁, hle₁⟩ := @considerPair_mono st q.1 q.2 x h
    obtain ⟨y, hy, hle⟩ := ih (considerPair st q.1 q.2) y₁ hy₁
    exact ⟨y, hy, hle₁.trans hle⟩

lemma pairFold_attain :
    ∀ (l : List (ExchangeCandidate × ExchangeCandidate)) (st : Option BestPair)
    (p : ExchangeCandidate × ExchangeCandidate), p ∈ l →
    validPair p.1 p.2 = true →
    ∃ y, pairFold l st = some y ∧
      (estimateNetProfitPercent p.1 p.2).netProfitPercent ≤ y.bestNet := by
  intro l
  induction l with
  | nil => intro st p hp; cases hp
  | cons q t ih =>
    intro st p hp hv
    rcases List.mem_cons.mp hp with rfl | hp
    · obtain ⟨y₁, hy₁, hle₁⟩ := @considerPair_attain st p.1 p.2 hv
      obtain ⟨y, hy, hle⟩ := pairFold_mono t (considerPair st p.1 p.2) y₁ hy₁
      exact ⟨y, hy, hle₁.trans hle⟩
    · exact ih (considerPair st q.1 q.2) p hp hv

lemma pairFold_noValid :
    ∀ (l : List (ExchangeCandidate × ExchangeCandidate)) (st : Option BestPair),
    (∀ p ∈ l, validPair p.1 p.2 = false) → pairFold l st = st := by
  intro l
  induction l with
  | nil => intro st _; rfl
  | cons q t ih =>
    intro st hl
    have : considerPair st q.1 q.2 = st :=
      considerPair_not_valid (hl q (List.mem_cons_self _ _))
    show pairFold t (considerPair st q.1 q.2) = st
    rw [this]
    exact ih st (fun p hp => hl p (List.mem_cons_of_mem _ hp))

/-! ### The final comparator is a total preorder; sorting facts -/

lemma rankedLE_total (x y : Nat × RankedAssetBase) :
    rankedLE x y ∨ rankedLE y x := by
  unfold rankedLE
  rcases lt_trichotomy (availRank x.2) (availRank y.2) with h | h | h
  · exact Or.inl (Or.inl h)
  · rcases lt_trichotomy x.2.score y.2.score with h2 | h2 | h2
    · exact Or.inr (Or.inr ⟨h.symm, Or.inl h2⟩)
    · rcases Nat.le_total x.1 y.1 with h3 | h3
      · exact Or.inl (Or.inr ⟨h, Or.inr ⟨h2, h3⟩⟩)
      · exact Or.inr (Or.inr ⟨h.symm, Or.inr ⟨h2.symm, h3⟩⟩)
    · exact Or.inl (Or.inr ⟨h, Or.inl h2⟩)
  · exact Or.inr (Or.inl h)

lemma rankedLE_trans (x y z : Nat × RankedAssetBase) :
    rankedLE x y → rankedLE y z → rankedLE x z := by
  unfold rankedLE
  rintro (h | ⟨e, h | ⟨e2, h⟩⟩) (h' | ⟨e', h' | ⟨e2', h'⟩⟩)
  · exact Or.inl (h.trans h')
  · exact Or.inl (e' ▸ h)
  · exact Or.inl (e' ▸ h)
  · exact Or.inl (e ▸ h')
  · exact Or.inr ⟨e.trans e', Or.inl (h'.trans h)⟩
  · exact Or.inr ⟨e.trans e', Or.inl (e2'.symm ▸ h)⟩
  · exact Or.inl (e ▸ h')
  · exact Or.inr ⟨e.trans e', Or.inl (e2 ▸ h')⟩
  · exact Or.inr ⟨e.trans e', Or.inr ⟨e2.trans e2', h.trans h'⟩⟩

instance : IsTotal (Nat × RankedAssetBase) rankedLE := ⟨rankedLE_total⟩
instance : IsTrans (Nat × RankedAssetBase) rankedLE := ⟨rankedLE_trans⟩

lemma availRank_eq_zero_iff (a : RankedAssetBase) :
    availRank a = 0 ↔ a.available = true := by
  unfold availRank
  by_cases h : a.available = true
  · simp [h]
  · simp [h]

lemma availRank_congr {a b : RankedAssetBase}
    (h : a.available = b.available) : availRank a = availRank b := by
  unfold availRank
  rw [h]

lemma sortRanked_perm (l : List RankedAssetBase) : (sortRanked l).Perm l := by
  unfold sortRanked sortIndexed
  have h := (List.perm_insertionSort rankedLE l.enum).map Prod.snd
  rwa [List.enum_map_snd] at h

lemma sortIndexed_sorted (l : List RankedAssetBase) :
    List.Sorted rankedLE (sortIndexed l) :=
  List.sorted_insertionSort rankedLE l.enum

lemma range_map_succ (n : ℕ) :
    (List.range n).map (fun i => i + 1) = List.range' 1 n := by
  induction n with
  | zero => rfl
  | succ k ih =>
    rw [List.range_succ, List.map_append, ih, List.range'_1_concat]
    simp [Nat.add_comm]

lemma assignRanks_ranks (m : List RankedAssetBase) :
    (assignRanks m).map (fun a => a.rank) = List.range' 1 m.length := by
  unfold assignRanks
  rw [List.map_map]
  have h1 : ((fun a : RankedAsset => a.rank) ∘
      fun p : Nat × RankedAssetBase =>
        ({ toRankedAssetBase := p.2, rank := p.1 + 1 } : RankedAsset)) =
      ((fun i => i + 1) ∘ Prod.fst) := rfl
  rw [h1, ← List.map_map, List.enum_map_fst]
  exact range_map_succ m.length

/-! ### Pipeline facts used by the outage and exchange-coverage claims -/

lemma candidatesFor_allNone (asset : TopAssetUniverseItem) :
    candidatesFor asset (fun _ => none) = [] := rfl

lemma mem_assignRanks_base {a : RankedAsset} {m : List RankedAssetBase}
    (h : a ∈ assignRanks m) : a.toRankedAssetBase ∈ m := by
  unfold assignRanks at h
  obtain ⟨p, hp, rfl⟩ := List.mem_map.mp h
  exact List.snd_mem_of_mem_enum hp

lemma mem_freshAssets_allNone {a : RankedAsset}
    (h : a ∈ freshAssets (fun _ => none)) : a.available = false := by
  unfold freshAssets at h
  have hbase := (sortRanked_perm _).mem_iff.mp (mem_assignRanks_base h)
  obtain ⟨asset, _, heq⟩ := List.mem_map.mp hbase
  rw [candidatesFor_allNone, rankAsset_nil] at heq
  have : a.toRankedAssetBase.available = false := by rw [← heq]; rfl
  exact this

lemma select_some_exchange {exchange : Exchange} {keys : List String}
    {items : List HookMarketItem} {c : ExchangeCandidate}
    (h : selectBestMarketForExchange exchange keys items = some c) :
    c.exchange = exchange :=
  mem_validCandidates_exchange ((firstMinimal_spec _ _ h).1)

lemma candidatesFor_mem_exchange {asset : TopAssetUniverseItem}
    {snaps : Exchange → Option (List HookMarketItem)} {c : ExchangeCandidate}
    (h : c ∈ candidatesFor asset snaps) :
    c.exchange ∈ TOP_ASSETS_EXCHANGES := by
  unfold candidatesFor at h
  obtain ⟨e, he, hc⟩ := List.mem_filterMap.mp h
  obtain ⟨items, _, hsel⟩ := Option.bind_eq_some.mp hc
  rw [select_some_exchange hsel]
  exact he

lemma candidatesFor_pairwise (asset : TopAssetUniverseItem)
    (snaps : Exchange → Option (List HookMarketItem)) :
    List.Pairwise (fun c d : ExchangeCandidate => c.exchange ≠ d.exchange)
      (candidatesFor asset snaps) := by
  have hnodup : List.Pairwise (fun e e' : Exchange => e ≠ e')
      TOP_ASSETS_EXCHANGES := by decide
  have H : ∀ e e' : Exchange, e ≠ e' →
      ∀ c ∈ (fun exchange => (snaps exchange).bind (fun items =>
        selectBestMarketForExchange exchange (assetKeys asset) items)) e,
      ∀ c' ∈ (fun exchange => (snaps exchange).bind (fun items =>
        selectBestMarketForExchange exchange (assetKeys asset) items)) e',
      c.exchange ≠ c'.exchange := by
    intro e e' hne c hc c' hc'
    obtain ⟨items, _, hsel⟩ := Option.bind_eq_some.mp (Option.mem_def.mp hc)
    obtain ⟨items', _, hsel'⟩ := Option.bind_eq_some.mp (Option.mem_def.mp hc')
    rw [select_some_exchange hsel, select_some_exchange hsel']
    exact hne
  exact List.Pairwise.filterMap _ H hnodup

/-! ## Claim theorems -/

/-- C9: a request while the cached slot is fresh (`expiresAt > now`) returns
exactly the cached payload (hence the same `generatedAt` and identical
`assets`) and leaves the slot untouched; a request at or after expiry
recomputes the full pipeline and replaces the whole slot with the fresh
payload and a new TTL. -/
theorem C9_cache_behavior (e : TopAssetsCacheEntry) (now : ℤ)
    (snaps : Exchange → Option (List HookMarketItem)) :
    (now < e.expiresAt → getStep (some e) now snaps = (e.payload, some e)) ∧
    (e.expiresAt ≤ now → getStep (some e) now snaps =
      (freshPayload now snaps,
        some ⟨now + TOP_ASSETS_CACHE_TTL_MS, freshPayload now snaps⟩)) := by
  constructor
  · intro h
    rw [getStep_some_eq, if_pos h]
  · intro h
    rw [getStep_some_eq, if_neg (not_lt.mpr h)]

/-- Witness for C9 at concrete cache states: a hit at `now = 10` against
`expiresAt = 20`, and a miss at `now = 10` against `expiresAt = 5`. -/
theorem C9_cache_behavior_witness :
    getStep (some ⟨20, stalePayload⟩) 10 (fun _ => none) =
      (stalePayload, some ⟨20, stalePayload⟩) ∧
    getStep (some ⟨5, stalePayload⟩) 10 (fun _ => none) =
      (freshPayload 10 (fun _ => none),
        some ⟨10 + TOP_ASSETS_CACHE_TTL_MS, freshPayload 10 (fun _ => none)⟩) :=
  ⟨(C9_cache_behavior ⟨20, stalePayload⟩ 10 (fun _ => none)).1 (by decide),
   (C9_cache_behavior ⟨5, stalePayload⟩ 10 (fun _ => none)).2 (by decide)⟩

/-- C4 as stated is false: for a zero-candidate asset the code pins
`guaranteedProfitPercent` to −999, which is not
`netProfitPercent − SAFETY_BUFFER_PERCENT = −999.35`. -/
theorem C4_counterexample :
    (rankAssetFromCandidates "Bitcoin" "BTC" []).guaranteedProfitPercent ≠
      (rankAssetFromCandidates "Bitcoin" "BTC" []).netProfitPercent -
        GUARANTEE_SAFETY_BUFFER_PERCENT := by
  rw [rankAsset_nil]
  show (-999 : ℚ) ≠ -999 - GUARANTEE_SAFETY_BUFFER_PERCENT
  norm_num [GUARANTEE_SAFETY_BUFFER_PERCENT]

/-- C4 (amended): for every asset with at least one candidate
`guaranteedProfitPercent = netProfitPercent − SAFETY_BUFFER_PERCENT`
(zero-candidate assets pin both to −999 instead); for every asset
`guaranteedProfit = true` exactly when `guaranteedProfitPercent > 0` and
`coverage ≥ MIN_COVERAGE`, `coverage` equals the number of candidates, and
`available` holds exactly when `coverage ≥ 1`. -/
theorem C4_guarantee_invariants (name symbol : String)
    (cands : List ExchangeCandidate) :
    (cands = [] ∨
      (rankAssetFromCandidates name symbol cands).guaranteedProfitPercent =
        (rankAssetFromCandidates name symbol cands).netProfitPercent -
          GUARANTEE_SAFETY_BUFFER_PERCENT) ∧
    ((rankAssetFromCandidates name symbol cands).guaranteedProfit = true ↔
      (0 < (rankAssetFromCandidates name symbol cands).guaranteedProfitPercent ∧
        GUARANTEE_MIN_COVERAGE ≤
          (rankAssetFromCandidates name symbol cands).coverage)) ∧
    (rankAssetFromCandidates name symbol cands).coverage = cands.length ∧
    ((rankAssetFromCandidates name symbol cands).available = true ↔
      1 ≤ cands.length) := by
  cases cands with
  | nil =>
    rw [rankAsset_nil]
    refine ⟨Or.inl rfl, ?_, rfl, ?_⟩
    · show (false = true) ↔
        (0 < (-999 : ℚ) ∧ GUARANTEE_MIN_COVERAGE ≤ 0)
      norm_num [GUARANTEE_MIN_COVERAGE]
    · show (false = true) ↔ 1 ≤ ([] : List ExchangeCandidate).length
      simp
  | cons only rest =>
    rw [rankAsset_cons]
    refine ⟨Or.inr rfl, ⟨fun h => of_decide_eq_true h,
      fun h => decide_eq_true h⟩, rfl, ?_⟩
    show (true = true) ↔ 1 ≤ (only :: rest).length
    simp [Nat.succ_le_succ]

/-- C3: for an asset with candidates but no quote-compatible cross-exchange
pair, the reported figures are the single-exchange fallback of the first
candidate: `netProfitPercent = −|2·fee + 2·slippage + transferCost +
spreadPercent|`, buy and sell exchange coincide with that candidate's
exchange, the estimate is never positive, and the asset is never flagged as
guaranteed profit. -/
theorem C3_single_exchange_fallback (name symbol : String)
    (only : ExchangeCandidate) (rest : List ExchangeCandidate)
    (h : ∀ p ∈ pairList (only :: rest), validPair p.1 p.2 = false) :
    (rankAssetFromCandidates name symbol (only :: rest)).netProfitPercent =
      -|TAKER_FEE_PERCENT only.exchange * 2 +
        estimateSlippagePercent only.spreadPercent * 2 +
        TRANSFER_COST_PERCENT + only.spreadPercent| ∧
    (rankAssetFromCandidates name symbol (only :: rest)).buyExchangeKey =
      (rankAssetFromCandidates name symbol (only :: rest)).sellExchangeKey ∧
    (rankAssetFromCandidates name symbol (only :: rest)).buyExchangeKey =
      only.exchange.key ∧
    (rankAssetFromCandidates name symbol (only :: rest)).netProfitPercent ≤ 0 ∧
    (rankAssetFromCandidates name symbol (only :: rest)).guaranteedProfit =
      false := by
  have hfb : findBestPair (only :: rest) = none := by
    rw [findBestPair_def]
    exact pairFold_noValid _ none h
  rw [rankAsset_cons, hfb, Option.getD_none]
  refine ⟨rfl, rfl, rfl, ?_, ?_⟩
  · show -|TAKER_FEE_PERCENT only.exchange * 2 +
      estimateSlippagePercent only.spreadPercent * 2 +
      TRANSFER_COST_PERCENT + only.spreadPercent| ≤ 0
    exact neg_nonpos_of_nonneg (abs_nonneg _)
  · apply decide_eq_false
    rintro ⟨h1, -⟩
    have hnet : (fallbackBestPair only).bestNet ≤ 0 :=
      neg_nonpos_of_nonneg (abs_nonneg _)
    have : (fallbackBestPair only).bestNet -
        GUARANTEE_SAFETY_BUFFER_PERCENT < 0 := by
      have hbuf : (0 : ℚ) < GUARANTEE_SAFETY_BUFFER_PERCENT := by
        norm_num [GUARANTEE_SAFETY_BUFFER_PERCENT]
      linarith
    exact absurd h1 (not_lt.mpr (le_of_lt this))

/-- Witness for C3 at a concrete single-candidate asset. -/
theorem C3_single_exchange_fallback_witness :
    (∀ p ∈ pairList [loneCandidate], validPair p.1 p.2 = false) ∧
    (rankAssetFromCandidates "Ethereum" "ETH" [loneCandidate]).netProfitPercent
      ≤ 0 ∧
    (rankAssetFromCandidates "Ethereum" "ETH"
      [loneCandidate]).guaranteedProfit = false :=
  ⟨by decide,
   (C3_single_exchange_fallback "Ethereum" "ETH" loneCandidate []
      (by decide)).2.2.2.1,
   (C3_single_exchange_fallback "Ethereum" "ETH" loneCandidate []
      (by decide)).2.2.2.2⟩

lemma scenarioA_slippage_binance :
    estimateSlippagePercent scenarioABinance.spreadPercent = 1/20 := by
  have habs : |scenarioABinance.spreadPercent| = 1/20 := by
    have h : scenarioABinance.spreadPercent = 1/20 := by
      norm_num [scenarioABinance]
    rw [h]
    exact abs_of_pos (by norm_num)
  unfold estimateSlippagePercent
  rw [habs, max_eq_left (by norm_num [SLIPPAGE_FLOOR_PERCENT])]
  norm_num [SLIPPAGE_FLOOR_PERCENT]

lemma scenarioA_slippage_kraken :
    estimateSlippagePercent scenarioAKraken.spreadPercent = 1/20 := by
  have habs : |scenarioAKraken.spreadPercent| = 1/10 := by
    have h : scenarioAKraken.spreadPercent = 1/10 := by
      norm_num [scenarioAKraken]
    rw [h]
    exact abs_of_pos (by norm_num)
  unfold estimateSlippagePercent
  rw [habs, max_eq_left (by norm_num [SLIPPAGE_FLOOR_PERCENT])]
  norm_num [SLIPPAGE_FLOOR_PERCENT]

lemma scenarioA_eval_bk :
    estimateNetProfitPercent scenarioABinance scenarioAKraken =
      ⟨-19037/50105, 1/5, 29/50⟩ := by
  unfold estimateNetProfitPercent
  dsimp only
  rw [scenarioA_slippage_binance, scenarioA_slippage_kraken]
  simp only [PairCalc.mk.injEq]
  norm_num [scenarioABinance, scenarioAKraken, TAKER_FEE_PERCENT,
    TRANSFER_COST_PERCENT, max_eq_right]

lemma scenarioA_eval_kb :
    estimateNetProfitPercent scenarioAKraken scenarioABinance =
      ⟨-547650/592183, -350/1003, 29/50⟩ := by
  unfold estimateNetProfitPercent
  dsimp only
  rw [scenarioA_slippage_binance, scenarioA_slippage_kraken]
  simp only [PairCalc.mk.injEq]
  norm_num [scenarioABinance, scenarioAKraken, TAKER_FEE_PERCENT,
    TRANSFER_COST_PERCENT, max_eq_right]

lemma scenarioA_takePair :
    takePair scenarioABinance scenarioAKraken =
      ⟨scenarioABinance, scenarioAKraken, -19037/50105, 1/5, 29/50⟩ := by
  unfold takePair
  dsimp only
  rw [scenarioA_eval_bk]

lemma scenarioA_best :
    findBestPair [scenarioABinance, scenarioAKraken] =
      some ⟨scenarioABinance, scenarioAKraken, -19037/50105, 1/5, 29/50⟩ := by
  have hvbb : validPair scenarioABinance scenarioABinance = false := by decide
  have hvbk : validPair scenarioABinance scenarioAKraken = true := by decide
  have hvkb : validPair scenarioAKraken scenarioABinance = true := by decide
  have hvkk : validPair scenarioAKraken scenarioAKraken = false := by decide
  have s1 : considerPair none scenarioABinance scenarioABinance = none := by
    rw [considerPair_none_eq, if_neg]
    rw [hvbb]
    exact Bool.false_ne_true
  have s2 : considerPair none scenarioABinance scenarioAKraken =
      some ⟨scenarioABinance, scenarioAKraken, -19037/50105, 1/5, 29/50⟩ := by
    rw [considerPair_none_eq, if_pos hvbk, scenarioA_takePair]
  have s3 : considerPair
      (some ⟨scenarioABinance, scenarioAKraken, -19037/50105, 1/5, 29/50⟩)
      scenarioAKraken scenarioABinance =
      some ⟨scenarioABinance, scenarioAKraken, -19037/50105, 1/5, 29/50⟩ := by
    rw [considerPair_some_eq, if_pos hvkb, if_neg]
    rw [scenarioA_eval_kb]
    show ¬((-19037 : ℚ)/50105 < -547650/592183)
    norm_num
  have s4 : considerPair
      (some ⟨scenarioABinance, scenarioAKraken, -19037/50105, 1/5, 29/50⟩)
      scenarioAKraken scenarioAKraken =
      some ⟨scenarioABinance, scenarioAKraken, -19037/50105, 1/5, 29/50⟩ := by
    rw [considerPair_some_eq, if_neg]
    rw [hvkk]
    exact Bool.false_ne_true
  rw [findBestPair_def]
  show considerPair (considerPair (considerPair (considerPair none
    scenarioABinance scenarioABinance) scenarioABinance scenarioAKraken)
    scenarioAKraken scenarioABinance) scenarioAKraken scenarioAKraken = _
  rw [s1, s2, s3, s4]

/-- C6 as stated is false: in Scenario A the best pair's gross arbitrage is
exactly (100.20 − 100.00)/100.00·100 = 0.2%, which is not ≈ 0.3% (it does not
even round to 0.3 at the quoted one-decimal precision). -/
theorem C6_counterexample :
    (rankAssetFromCandidates "Bitcoin" "BTC"
      [scenarioABinance, scenarioAKraken]).grossArbitragePercent = 1/5 ∧
    ¬(|(rankAssetFromCandidates "Bitcoin" "BTC"
      [scenarioABinance, scenarioAKraken]).grossArbitragePercent -
        (3/10 : ℚ)| < 1/20) := by
  rw [rankAsset_cons, scenarioA_best, Option.getD_some]
  constructor
  · rfl
  · show ¬(|(1 : ℚ)/5 - 3/10| < 1/20)
    have h : |(1 : ℚ)/5 - 3/10| = 1/10 := by
      rw [show (1 : ℚ)/5 - 3/10 = -(1/10) by norm_num, abs_neg, abs_of_pos]
      norm_num
    rw [h]
    norm_num

/-- C6 (amended): in Scenario A the best pair buys on binance and sells on
kraken, `grossArbitragePercent` is exactly 0.2%, `netProfitPercent` is
negative, and `guaranteedProfit` is false. -/
theorem C6_scenarioA :
    (rankAssetFromCandidates "Bitcoin" "BTC"
      [scenarioABinance, scenarioAKraken]).buyExchangeKey = "binance" ∧
    (rankAssetFromCandidates "Bitcoin" "BTC"
      [scenarioABinance, scenarioAKraken]).sellExchangeKey = "kraken" ∧
    (rankAssetFromCandidates "Bitcoin" "BTC"
      [scenarioABinance, scenarioAKraken]).grossArbitragePercent = 1/5 ∧
    (rankAssetFromCandidates "Bitcoin" "BTC"
      [scenarioABinance, scenarioAKraken]).netProfitPercent < 0 ∧
    (rankAssetFromCandidates "Bitcoin" "BTC"
      [scenarioABinance, scenarioAKraken]).guaranteedProfit = false := by
  rw [rankAsset_cons, scenarioA_best, Option.getD_some]
  refine ⟨rfl, rfl, rfl, ?_, ?_⟩
  · show (-19037 : ℚ)/50105 < 0
    norm_num
  · apply decide_eq_false
    rintro ⟨h1, -⟩
    revert h1
    show ¬(0 < (-19037 : ℚ)/50105 - GUARANTEE_SAFETY_BUFFER_PERCENT)
    norm_num [GUARANTEE_SAFETY_BUFFER_PERCENT]

/-- C1: the pair evaluator's formulas are exactly the specification's
(`estimateNetProfitPercent` coincides with the spec-written `specPairCalc`
on every ordered pair), and whenever a quote-compatible cross-exchange pair
exists, the asset's reported net, gross, cost and exchange figures are those
of such a pair whose `netProfitPercent` is maximal over all such pairs. -/
theorem C1_pair_evaluator (name symbol : String)
    (cands : List ExchangeCandidate)
    (h : ∃ p ∈ pairList cands, validPair p.1 p.2 = true) :
    (∀ b s, estimateNetProfitPercent b s = specPairCalc b s) ∧
    ∃ bp, findBestPair cands = some bp ∧
      bp.bestBuy ∈ cands ∧ bp.bestSell ∈ cands ∧
      validPair bp.bestBuy bp.bestSell = true ∧
      bp.bestNet =
        (estimateNetProfitPercent bp.bestBuy bp.bestSell).netProfitPercent ∧
      bp.bestGross =
        (estimateNetProfitPercent bp.bestBuy bp.bestSell).grossArbitragePercent ∧
      bp.bestCosts =
        (estimateNetProfitPercent bp.bestBuy bp.bestSell).estimatedCostsPercent ∧
      (∀ p ∈ pairList cands, validPair p.1 p.2 = true →
        (estimateNetProfitPercent p.1 p.2).netProfitPercent ≤ bp.bestNet) ∧
      (rankAssetFromCandidates name symbol cands).netProfitPercent =
        bp.bestNet ∧
      (rankAssetFromCandidates name symbol cands).grossArbitragePercent =
        bp.bestGross ∧
      (rankAssetFromCandidates name symbol cands).estimatedCostsPercent =
        bp.bestCosts ∧
      (rankAssetFromCandidates name symbol cands).buyExchangeKey =
        bp.bestBuy.exchange.key ∧
      (rankAssetFromCandidates name symbol cands).sellExchangeKey =
        bp.bestSell.exchange.key := by
  refine ⟨fun b s => rfl, ?_⟩
  obtain ⟨p, hp, hv⟩ := h
  obtain ⟨bp, hbp, -⟩ := pairFold_attain (pairList cands) none p hp hv
  have hfind : findBestPair cands = some bp :=
    (findBestPair_def cands).trans hbp
  have hgood : bpGood cands bp :=
    pairFold_good (pairList cands) none
      (fun q hq => mem_pairList.mp hq) (fun x hx => by cases hx) bp hbp
  have hmax : ∀ q ∈ pairList cands, validPair q.1 q.2 = true →
      (estimateNetProfitPercent q.1 q.2).netProfitPercent ≤ bp.bestNet := by
    intro q hq hvq
    obtain ⟨bp', hbp', hle'⟩ := pairFold_attain (pairList cands) none q hq hvq
    rw [hbp] at hbp'
    obtain rfl := Option.some.inj hbp'
    exact hle'
  cases cands with
  | nil => cases hp
  | cons only rest =>
    refine ⟨bp, hfind, hgood.1, hgood.2.1, hgood.2.2.1, hgood.2.2.2.1,
      hgood.2.2.2.2.1, hgood.2.2.2.2.2, hmax, ?_, ?_, ?_, ?_, ?_⟩ <;>
      rw [rankAsset_cons, hfind, Option.getD_some]
    all_goals rfl

/-- Witness for C1: Scenario A's two candidates form a valid pair, and the
formula refinement holds there. -/
theorem C1_pair_evaluator_witness :
    (∃ p ∈ pairList [scenarioABinance, scenarioAKraken],
      validPair p.1 p.2 = true) ∧
    (∀ b s, estimateNetProfitPercent b s = specPairCalc b s) :=
  ⟨⟨(scenarioABinance, scenarioAKraken),
      List.mem_cons_of_mem _ (List.mem_cons_self _ _), by decide⟩,
   (C1_pair_evaluator "Bitcoin" "BTC" [scenarioABinance, scenarioAKraken]
      ⟨(scenarioABinance, scenarioAKraken),
        List.mem_cons_of_mem _ (List.mem_cons_self _ _), by decide⟩).1⟩

/-- C2 as stated is false on two counts.  With two USDT markets of signed
spreads −2% and 1%, the source selector returns the −2% one while the order
the claim states (ascending ABSOLUTE spread at equal quote priority) selects
the 1% one: the returned ticker is not minimal under the claimed order, and
the source selector provably differs from the claim-order selector at this
input (the source comparator sorts by signed spread).  And with a matching
market whose ask fails to parse, the selector returns `none` even though a
ticker's normalized base-asset key matches the canonical symbol. -/
theorem C2_counterexample :
    selectBestMarketForExchange .binance ["BTC"]
      [crossedSpreadItem, tightSpreadItem] =
      some (toCandidate .binance crossedSpreadItem) ∧
    specSelectBestMarket .binance ["BTC"]
      [crossedSpreadItem, tightSpreadItem] =
      some (toCandidate .binance tightSpreadItem) ∧
    selectBestMarketForExchange .binance ["BTC"]
      [crossedSpreadItem, tightSpreadItem] ≠
      specSelectBestMarket .binance ["BTC"]
        [crossedSpreadItem, tightSpreadItem] ∧
    toCandidate .binance tightSpreadItem ∈
      validCandidates .binance ["BTC"] [crossedSpreadItem, tightSpreadItem] ∧
    getQuotePriority (toCandidate .binance tightSpreadItem).quoteAsset =
      getQuotePriority (toCandidate .binance crossedSpreadItem).quoteAsset ∧
    |(toCandidate .binance tightSpreadItem).spreadPercent| <
      |(toCandidate .binance crossedSpreadItem).spreadPercent| ∧
    specCandBefore (toCandidate .binance tightSpreadItem)
      (toCandidate .binance crossedSpreadItem) = true ∧
    selectBestMarketForExchange .binance ["BTC"] [badAskItem] = none ∧
    marketIndexFind [badAskItem] "BTC" = [badAskItem] := by
  refine ⟨rfl, by decide, by decide, ?_, by decide, by decide, by decide,
    rfl, rfl⟩
  decide

/-- C2 (amended): the selector returns `none` exactly when the parsed,
price-filtered pool is empty (no key match, or every match has a non-positive
or unparseable price); otherwise it returns a member of the pool with
positive ask, bid and last that is minimal under the source order (ascending
quote priority, ascending SIGNED spread percent, descending bid). -/
theorem C2_selector_correct (exchange : Exchange) (keys : List String)
    (items : List HookMarketItem) :
    (selectBestMarketForExchange exchange keys items = none ↔
      validCandidates exchange keys items = []) ∧
    ∀ c, selectBestMarketForExchange exchange keys items = some c →
      c ∈ validCandidates exchange keys items ∧
      (0 < c.ask ∧ 0 < c.bid ∧ 0 < c.last) ∧
      ∀ d ∈ validCandidates exchange keys items, candBefore d c = false :=
  ⟨firstMinimal_none_iff _, fun c hc =>
    ⟨(firstMinimal_spec _ c hc).1,
     mem_validCandidates_pos (firstMinimal_spec _ c hc).1,
     (firstMinimal_spec _ c hc).2⟩⟩

/-- Witness for C2 at a concrete one-item exchange snapshot. -/
theorem C2_selector_correct_witness :
    toCandidate .binance crossedSpreadItem ∈
      validCandidates .binance ["BTC"] [crossedSpreadItem] ∧
    (0 < (toCandidate .binance crossedSpreadItem).ask ∧
      0 < (toCandidate .binance crossedSpreadItem).bid ∧
      0 < (toCandidate .binance crossedSpreadItem).last) ∧
    ∀ d ∈ validCandidates .binance ["BTC"] [crossedSpreadItem],
      candBefore d (toCandidate .binance crossedSpreadItem) = false :=
  (C2_selector_correct .binance ["BTC"] [crossedSpreadItem]).2
    (toCandidate .binance crossedSpreadItem) rfl

lemma rankedLE_avail {x y : Nat × RankedAssetBase} (h : rankedLE x y)
    (hy : y.2.available = true) : x.2.available = true := by
  have hy0 : availRank y.2 = 0 := (availRank_eq_zero_iff _).mpr hy
  rcases h with h | ⟨e, -⟩
  · rw [hy0] at h
    exact absurd h (Nat.not_lt_zero _)
  · exact (availRank_eq_zero_iff _).mp (by rw [e, hy0])

lemma rankedLE_score {x y : Nat × RankedAssetBase} (h : rankedLE x y)
    (he : x.2.available = y.2.available) : y.2.score ≤ x.2.score := by
  rcases h with h | ⟨-, h2 | ⟨e2, -⟩⟩
  · exact absurd h (by rw [availRank_congr he]; exact lt_irrefl _)
  · exact le_of_lt h2
  · exact le_of_eq e2.symm

lemma rankedLE_stable {x y : Nat × RankedAssetBase} (h : rankedLE x y)
    (he : x.2.available = y.2.available) (hsc : x.2.score = y.2.score) :
    x.1 ≤ y.1 := by
  rcases h with h | ⟨-, h2 | ⟨-, h3⟩⟩
  · exact absurd h (by rw [availRank_congr he]; exact lt_irrefl _)
  · exact absurd h2 (by rw [hsc]; exact lt_irrefl _)
  · exact h3

/-- C5: the response ordering is a stable sort putting available assets
strictly before unavailable ones and sorting by descending score, with
original-order tie-breaking, and the `rank` fields are exactly `1..N` in
array order. -/
theorem C5_ordering (l : List RankedAssetBase) :
    (sortRanked l).Perm l ∧
    List.Pairwise (fun a b : RankedAssetBase =>
      b.available = true → a.available = true) (sortRanked l) ∧
    List.Pairwise (fun a b : RankedAssetBase =>
      a.available = b.available → b.score ≤ a.score) (sortRanked l) ∧
    List.Pairwise (fun x y : Nat × RankedAssetBase =>
      x.2.available = y.2.available → x.2.score = y.2.score → x.1 ≤ y.1)
      (sortIndexed l) ∧
    (assignRanks (sortRanked l)).map (fun a => a.rank) =
      List.range' 1 l.length := by
  have hs := sortIndexed_sorted l
  refine ⟨sortRanked_perm l, ?_, ?_, ?_, ?_⟩
  · unfold sortRanked
    rw [List.pairwise_map]
    exact hs.imp (fun h hy => rankedLE_avail h hy)
  · unfold sortRanked
    rw [List.pairwise_map]
    exact hs.imp (fun h he => rankedLE_score h he)
  · exact hs.imp (fun h he hsc => rankedLE_stable h he hsc)
  · rw [assignRanks_ranks, (sortRanked_perm l).length_eq]

/-- C7 as stated is false: when every exchange fetch fails and the cache has
expired, the stale cached payload is NOT served — a freshly computed, normally
ranked payload is returned instead. -/
theorem C7_counterexample :
    (getStep (some ⟨5, stalePayload⟩) 10 (fun _ => none)).1 ≠ stalePayload := by
  rw [getStep_some_eq, if_neg (by decide)]
  intro h
  have hg := congrArg Payload.generatedAt h
  exact absurd hg (by decide)

/-- C7 (amended): when every exchange fetch fails and the cache slot is
absent or expired, the request is served best-effort after all: the payload
is the normally computed one in which every asset is unavailable; no stale
cache and no flagged failure response is produced. -/
theorem C7_all_fail (cache : Option TopAssetsCacheEntry) (now : ℤ)
    (h : cache = none ∨ ∃ e, cache = some e ∧ e.expiresAt ≤ now) :
    (getStep cache now (fun _ => none)).1 =
      freshPayload now (fun _ => none) ∧
    ∀ a ∈ (getStep cache now (fun _ => none)).1.assets,
      a.available = false := by
  have hmain : (getStep cache now (fun _ => none)).1 =
      freshPayload now (fun _ => none) := by
    rcases h with rfl | ⟨e, rfl, he⟩
    · rw [getStep_none_eq]
    · rw [getStep_some_eq, if_neg (not_lt.mpr he)]
  refine ⟨hmain, ?_⟩
  rw [hmain]
  intro a ha
  exact mem_freshAssets_allNone ha

/-- Witness for C7 at a concrete expired cache state. -/
theorem C7_all_fail_witness :
    ((some ⟨5, stalePayload⟩ : Option TopAssetsCacheEntry) = none ∨
      ∃ e, (some ⟨5, stalePayload⟩ : Option TopAssetsCacheEntry) = some e ∧
        e.expiresAt ≤ 10) ∧
    (getStep (some ⟨5, stalePayload⟩) 10 (fun _ => none)).1 =
      freshPayload 10 (fun _ => none) :=
  ⟨Or.inr ⟨⟨5, stalePayload⟩, rfl, by decide⟩,
   (C7_all_fail (some ⟨5, stalePayload⟩) 10
      (Or.inr ⟨⟨5, stalePayload⟩, rfl, by decide⟩)).1⟩

/-- C8 as stated is false in one clause: an item whose `spread_percentual`
fails to parse is NOT excluded — its spread is coerced to 0 and the item can
still become the exchange's candidate (only non-numeric or non-positive ask,
bid and last exclude an item). -/
theorem C8_counterexample :
    badSpreadItem.spread_percentual = none ∧
    selectBestMarketForExchange .binance ["BTC"] [badSpreadItem] =
      some (toCandidate .binance badSpreadItem) :=
  ⟨rfl, rfl⟩

/-- C8 (amended): parsing is total (a non-numeric field becomes 0 and never a
fatal error), items with non-numeric or non-positive ask, bid or last are
excluded, so every selected `ExchangeCandidate` has positive ask, bid and
last; a non-numeric `spread_percentual` alone does not exclude an item. -/
theorem C8_positive_prices (exchange : Exchange) (keys : List String)
    (items : List HookMarketItem) (c : ExchangeCandidate)
    (h : selectBestMarketForExchange exchange keys items = some c) :
    0 < c.ask ∧ 0 < c.bid ∧ 0 < c.last :=
  mem_validCandidates_pos ((firstMinimal_spec _ _ h).1)

/-- Witness for C8 at a concrete snapshot. -/
theorem C8_positive_prices_witness :
    selectBestMarketForExchange .binance ["BTC"] [badSpreadItem] =
      some (toCandidate .binance badSpreadItem) ∧
    0 < (toCandidate .binance badSpreadItem).ask ∧
    0 < (toCandidate .binance badSpreadItem).bid ∧
    0 < (toCandidate .binance badSpreadItem).last :=
  ⟨rfl, C8_positive_prices .binance ["BTC"] [badSpreadItem]
    (toCandidate .binance badSpreadItem) rfl⟩

/-- Witness for C4 at a concrete single-candidate asset. -/
theorem C4_guarantee_invariants_witness :
    (rankAssetFromCandidates "Ethereum" "ETH" [loneCandidate]).coverage =
      [loneCandidate].length ∧
    ((rankAssetFromCandidates "Ethereum" "ETH" [loneCandidate]).available =
      true ↔ 1 ≤ [loneCandidate].length) :=
  ⟨(C4_guarantee_invariants "Ethereum" "ETH" [loneCandidate]).2.2.1,
   (C4_guarantee_invariants "Ethereum" "ETH" [loneCandidate]).2.2.2⟩

/-- Witness for C5 at a concrete two-element list. -/
theorem C5_ordering_witness :
    (sortRanked [emptyRanked "Bitcoin" "BTC",
      emptyRanked "Ethereum" "ETH"]).Perm
      [emptyRanked "Bitcoin" "BTC", emptyRanked "Ethereum" "ETH"] ∧
    (assignRanks (sortRanked [emptyRanked "Bitcoin" "BTC",
      emptyRanked "Ethereum" "ETH"])).map (fun a => a.rank) =
      List.range' 1 2 :=
  ⟨(C5_ordering [emptyRanked "Bitcoin" "BTC",
      emptyRanked "Ethereum" "ETH"]).1,
   (C5_ordering [emptyRanked "Bitcoin" "BTC",
      emptyRanked "Ethereum" "ETH"]).2.2.2.2⟩

lemma rankAsset_coverage (name symbol : String)
    (cands : List ExchangeCandidate) :
    (rankAssetFromCandidates name symbol cands).coverage = cands.length := by
  cases cands with
  | nil => rfl
  | cons only rest => rfl

/-- C10: coinbase appears in the supported-exchange and fee tables but is
filtered out of the queried exchange list; each queried exchange contributes
at most one candidate, so an asset's candidates have pairwise distinct
exchanges, none of them coinbase, and coverage is at most 4. -/
theorem C10_exchange_coverage (asset : TopAssetUniverseItem)
    (snaps : Exchange → Option (List HookMarketItem)) :
    Exchange.coinbase ∈ SUPPORTED_EXCHANGES ∧
    TAKER_FEE_PERCENT Exchange.coinbase = 0.6 ∧
    Exchange.coinbase ∉ TOP_ASSETS_EXCHANGES ∧
    TOP_ASSETS_EXCHANGES.length = 4 ∧
    List.Pairwise (fun c d : ExchangeCandidate => c.exchange ≠ d.exchange)
      (candidatesFor asset snaps) ∧
    (candidatesFor asset snaps).all
      (fun c => c.exchange ≠ Exchange.coinbase) = true ∧
    (candidatesFor asset snaps).length ≤ 4 ∧
    (rankAssetFromCandidates asset.name asset.symbol
      (candidatesFor asset snaps)).coverage ≤ 4 := by
  have hlen : (candidatesFor asset snaps).length ≤ 4 := by
    unfold candidatesFor
    exact le_trans (List.length_filterMap_le _ _) (le_of_eq rfl)
  refine ⟨by decide, rfl, by decide, rfl,
    candidatesFor_pairwise asset snaps, ?_, hlen, ?_⟩
  · rw [List.all_eq_true]
    intro c hc
    have hne : ∀ e ∈ TOP_ASSETS_EXCHANGES, e ≠ Exchange.coinbase := by decide
    exact decide_eq_true (hne _ (candidatesFor_mem_exchange hc))
  · rw [rankAsset_coverage]
    exact hlen

/-- Witness for C10 at a concrete asset and all-failed snapshots. -/
theorem C10_exchange_coverage_witness :
    Exchange.coinbase ∈ SUPPORTED_EXCHANGES ∧
    Exchange.coinbase ∉ TOP_ASSETS_EXCHANGES ∧
    (candidatesFor ⟨"Bitcoin", "BTC", []⟩ (fun _ => none)).length ≤ 4 :=
  ⟨(C10_exchange_coverage ⟨"Bitcoin", "BTC", []⟩ (fun _ => none)).1,
   (C10_exchange_coverage ⟨"Bitcoin", "BTC", []⟩ (fun _ => none)).2.2.1,
   (C10_exchange_coverage ⟨"Bitcoin", "BTC", []⟩ (fun _ => none)).2.2.2.2.2.2.1⟩

end CriptoBug
